import Mathlib

set_option maxHeartbeats 1000000

/-!
Verification development for the MessageDict release tool (`upload.py`).

The Python source is shallowly embedded: every function relevant to the
claims is translated to a pure, executable Lean definition.  External
effects (file reads, HTTP calls, shell commands) are passed in explicitly
as values of an environment record; fallible operations are modelled with
`Except`/`Option`.  Regular-expression substitutions are embedded as
character-list scanners that reproduce the leftmost, non-overlapping
semantics of `re.sub`/`re.search` for the concrete patterns appearing in
the source.
-/

namespace MessageDict

/-- Strip an exact character-list prefix, returning the remainder on success. -/
def dropPre : List Char → List Char → Option (List Char)
  | [], s => some s
  | _ :: _, [] => none
  | p :: ps, c :: cs => if p = c then dropPre ps cs else none

/-- Substring test (Python's `in` operator on strings). -/
def hasSub (pat : List Char) : List Char → Bool
  | [] => (dropPre pat []).isSome
  | c :: cs => (dropPre pat (c :: cs)).isSome || hasSub pat cs

/-- Python `str.lower()` restricted to ASCII case mapping. -/
def toLowerL (s : List Char) : List Char := s.map Char.toLower

/-- The whitespace class matched by `\s` in Python regular expressions
(ASCII whitespace together with the Unicode space characters). -/
def isSp (c : Char) : Bool :=
  c = ' ' || c = '\t' || c = '\n' || c = '\r' || c = '\x0b' || c = '\x0c' ||
  c = '\x1c' || c = '\x1d' || c = '\x1e' || c = '\x1f' ||
  c = '\u0085' || c = '\u00a0' || c = '\u1680' ||
  (('\u2000' ≤ c) && (c ≤ '\u200a')) ||
  c = '\u2028' || c = '\u2029' || c = '\u202f' || c = '\u205f' || c = '\u3000'

/-! ## Link Validator (`validate_url`, upload.py lines 78-103)

`urlparse` is modelled by its scheme/netloc extraction: a scheme is the
lowercased text before the first `:` when it is nonempty, starts with an
ASCII letter and consists of scheme characters; the netloc follows `//`
and extends to the first `/`, `?` or `#`.  `urlparse` raises only on a
mismatched `[`/`]` pair in the netloc, which the source converts to the
"Invalid URL" diagnostic. -/

def schemeChar (c : Char) : Bool :=
  c.isAlpha || c.isDigit || c = '+' || c = '-' || c = '.'

def splitScheme (u : List Char) : List Char × List Char :=
  let pre := u.takeWhile (fun c => c != ':')
  if pre.length = u.length then ([], u)
  else if pre.isEmpty then ([], u)
  else if pre.all schemeChar && (match pre with
    | c :: _ => c.isAlpha
    | [] => false) then
    (pre.map Char.toLower, u.drop (pre.length + 1))
  else ([], u)

def splitNetloc (u : List Char) : List Char × List Char :=
  match u with
  | '/' :: '/' :: rest =>
    (rest.takeWhile (fun c => c != '/' && c != '?' && c != '#'),
     rest.dropWhile (fun c => c != '/' && c != '?' && c != '#'))
  | _ => ([], u)

def urlparseSN (u : List Char) : Except String (List Char × List Char) :=
  let s := (splitScheme u).1
  let r := (splitScheme u).2
  let n := (splitNetloc r).1
  if (n.contains '[' && !n.contains ']') || (n.contains ']' && !n.contains '[') then
    Except.error ("Invalid IPv6 URL")
  else Except.ok (s, n)

structure ValidationResult where
  accepted : Bool
  diagnostic : Option String
  prompted : Bool
deriving DecidableEq, Repr

def tokenMsg : String :=
  "This looks like a GitHub token, not a shortcut URL. Please enter the iCloud Shortcuts URL (e.g., https://www.icloud.com/shortcuts/...)"

def icloudPat : List Char := ("icloud.com/shortcuts").toList
def shortcutsPat : List Char := ("shortcuts").toList
def ghpPre : List Char := ("ghp_").toList
def patPre : List Char := ("github_pat_").toList

/-- Embedding of `validate_url`.  `userConfirm` is the answer the user
would give to the "Continue anyway? (y/n)" prompt; `prompted` records
whether that prompt was shown. -/
def validate_url (url : String) (userConfirm : Bool) : ValidationResult :=
  let ul := url.toList
  if ul.isEmpty then ⟨false, some ("URL is empty"), false⟩
  else if (dropPre patPre ul).isSome || (dropPre ghpPre ul).isSome then
    ⟨false, some tokenMsg, false⟩
  else
    match urlparseSN ul with
    | Except.error e => ⟨false, some ("Invalid URL: " ++ e), false⟩
    | Except.ok (s, n) =>
      if s.isEmpty || n.isEmpty then
        ⟨false, some ("Invalid URL format. Please include http:// or https://"), false⟩
      else if !(hasSub icloudPat (toLowerL ul)) && !(hasSub shortcutsPat (toLowerL ul)) then
        if userConfirm then ⟨true, none, true⟩
        else ⟨false, some ("URL validation cancelled by user"), true⟩
      else ⟨true, none, false⟩

/-! ## Remote Metadata Resolver (`get_github_repo`, upload.py lines 57-76)

The two patterns `github\.com[:/]([^/]+)/([^/]+?)(?:\.git)?$` and
`github\.com[:/]([^/]+)/([^/]+?)(?:\.git)?/?$` are embedded as scanners:
`re.search` tries each start position from the left; at a start position
the greedy `([^/]+)` is forced to the maximal slash-free run, and the
lazy `([^/]+?)` grows one character at a time until the optional `.git`
(and for the second pattern an optional `/`) reaches the end anchor. -/

def ghLit : List Char := ("github.com").toList

def g2scan1 : List Char → List Char → Option (List Char)
  | _, [] => none
  | acc, c :: rest =>
    if c = '/' then none
    else if rest = [] ∨ rest = (".git").toList then some (acc ++ [c])
    else g2scan1 (acc ++ [c]) rest

def g2scan2 : List Char → List Char → Option (List Char)
  | _, [] => none
  | acc, c :: rest =>
    if c = '/' then none
    else if rest = [] ∨ rest = ("/").toList ∨ rest = (".git").toList ∨
        rest = (".git/").toList then some (acc ++ [c])
    else g2scan2 (acc ++ [c]) rest

def p1At (s : List Char) : Option (List Char × List Char) :=
  match dropPre ghLit s with
  | none => none
  | some r =>
    match r with
    | [] => none
    | c :: r2 =>
      if c = ':' ∨ c = '/' then
        let g1 := r2.takeWhile (fun a => a != '/')
        match r2.dropWhile (fun a => a != '/') with
        | '/' :: t =>
          if g1.isEmpty then none
          else match g2scan1 [] t with
            | some g2 => some (g1, g2)
            | none => none
        | _ => none
      else none

def p2At (s : List Char) : Option (List Char × List Char) :=
  match dropPre ghLit s with
  | none => none
  | some r =>
    match r with
    | [] => none
    | c :: r2 =>
      if c = ':' ∨ c = '/' then
        let g1 := r2.takeWhile (fun a => a != '/')
        match r2.dropWhile (fun a => a != '/') with
        | '/' :: t =>
          if g1.isEmpty then none
          else match g2scan2 [] t with
            | some g2 => some (g1, g2)
            | none => none
        | _ => none
      else none

def searchP1 : List Char → Option (List Char × List Char)
  | [] => none
  | c :: cs =>
    match p1At (c :: cs) with
    | some g => some g
    | none => searchP1 cs

def searchP2 : List Char → Option (List Char × List Char)
  | [] => none
  | c :: cs =>
    match p2At (c :: cs) with
    | some g => some g
    | none => searchP2 cs

/-- Embedding of `get_github_repo` given the remote URL reported by
`git remote get-url origin`; `none` models the fatal `sys.exit(1)` paths. -/
def get_github_repo (remote_url : String) : Option String :=
  if remote_url.toList.isEmpty then none
  else
    match searchP1 remote_url.toList with
    | some (g1, g2) => some (String.mk (g1 ++ '/' :: g2))
    | none =>
      match searchP2 remote_url.toList with
      | some (g1, g2) => some (String.mk (g1 ++ '/' :: g2))
      | none => none

/-! ## Document Patcher (`replace_readme_link` lines 163-180,
`replace_readme_qr_code` lines 182-199)

`re.sub(pattern, repl, line)` replaces every leftmost, non-overlapping
match.  For `(\*\*Install MessageDict:\*\* )https://[^\s]+` a match is the
33-character literal `**Install MessageDict:** https://` followed by a
maximal nonempty run of non-whitespace; the replacement template
`\1new_link` rewrites it to the captured 25-character group followed by
the replacement text (inserted literally; the theorems below restrict to
backslash-free replacements so that template escapes cannot arise).

For `(<img src=")[^"]+(" alt="MessageDict QR Code"[^>]*>)` a match is
`<img src="` followed by a nonempty quote-free run, the literal
`" alt="MessageDict QR Code"`, a maximal `>`-free run, and `>`; the
template `\1url\2` keeps both captured groups around the replacement. -/

def grpL : List Char := ("**Install MessageDict:** ").toList
def httpsL : List Char := ("https://").toList
def litL : List Char := grpL ++ httpsL
def q1L : List Char := ("<img src=\"").toList
def q2L : List Char := ("\" alt=\"MessageDict QR Code\"").toList

/-- One `re.sub` pass for the install-link pattern, scanning left to
right and restarting after each replaced match. -/
def subLA (nl : List Char) : List Char → List Char
  | [] => []
  | c :: cs =>
    match h : dropPre litL (c :: cs) with
    | some r =>
      if (r.takeWhile (fun a => !isSp a)).isEmpty then c :: subLA nl cs
      else grpL ++ nl ++ subLA nl (r.dropWhile (fun a => !isSp a))
    | none => c :: subLA nl cs
termination_by s => s.length
decreasing_by
  · simp
  · have key : ∀ p s r : List Char, dropPre p s = some r →
        s.length = p.length + r.length := by
      intro p
      induction p with
      | nil =>
        intro s r hh
        simp [dropPre] at hh
        subst hh
        simp
      | cons a ps ih =>
        intro s r hh
        cases s with
        | nil => simp [dropPre] at hh
        | cons c cs =>
          simp only [dropPre] at hh
          by_cases hac : a = c
          · rw [if_pos hac] at hh
            have := ih cs r hh
            simp only [List.length_cons, this]
            omega
          · rw [if_neg hac] at hh
            exact absurd hh (by simp)
    have hw : ∀ (f : Char → Bool) (l : List Char),
        (l.dropWhile f).length ≤ l.length := by
      intro f l
      induction l with
      | nil => simp [List.dropWhile]
      | cons a t ih =>
        by_cases hf : f a
        · simp only [List.dropWhile, hf, List.length_cons]
          omega
        · simp [List.dropWhile, hf]
    have h1 := key litL (c :: cs) r h
    have h2 := hw (fun a => !isSp a) r
    have hlit : litL.length = 33 := by rfl
    simp only [List.length_cons] at *
    omega
  · simp

/-- Attempt to match the QR-code image pattern at the head of the input;
returns the second captured group (`[^>]*`) and the rest of the input
after the match. -/
def qrMatch (s : List Char) : Option (List Char × List Char) :=
  match dropPre q1L s with
  | none => none
  | some r1 =>
    if (r1.takeWhile (fun a => a != '"')).isEmpty then none
    else
      match dropPre q2L (r1.dropWhile (fun a => a != '"')) with
      | none => none
      | some r3 =>
        match r3.dropWhile (fun a => a != '>') with
        | [] => none
        | _ :: rest => some (r3.takeWhile (fun a => a != '>'), rest)

/-- One `re.sub` pass for the QR-code image pattern. -/
def subQA (u : List Char) : List Char → List Char
  | [] => []
  | c :: cs =>
    match h : qrMatch (c :: cs) with
    | some (run2, rest) => q1L ++ u ++ q2L ++ run2 ++ '>' :: subQA u rest
    | none => c :: subQA u cs
termination_by s => s.length
decreasing_by
  · have key : ∀ p s r : List Char, dropPre p s = some r →
        s.length = p.length + r.length := by
      intro p
      induction p with
      | nil =>
        intro s r hh
        simp [dropPre] at hh
        subst hh
        simp
      | cons a ps ih =>
        intro s r hh
        cases s with
        | nil => simp [dropPre] at hh
        | cons c cs =>
          simp only [dropPre] at hh
          by_cases hac : a = c
          · rw [if_pos hac] at hh
            have := ih cs r hh
            simp only [List.length_cons, this]
            omega
          · rw [if_neg hac] at hh
            exact absurd hh (by simp)
    have hw : ∀ (f : Char → Bool) (l : List Char),
        (l.dropWhile f).length ≤ l.length := by
      intro f l
      induction l with
      | nil => simp [List.dropWhile]
      | cons a t ih =>
        by_cases hf : f a
        · simp only [List.dropWhile, hf, List.length_cons]
          omega
        · simp [List.dropWhile, hf]
    unfold qrMatch at h
    split at h
    · exact absurd h (by simp)
    case _ r1 h1 =>
      have hs : (c :: cs).length = q1L.length + r1.length := key _ _ _ h1
      split at h
      · exact absurd h (by simp)
      · split at h
        · exact absurd h (by simp)
        case _ r3 h3 =>
          have hr2 : (r1.dropWhile (fun a => a != '"')).length ≤ r1.length :=
            hw _ r1
          have hr3 : (r1.dropWhile (fun a => a != '"')).length =
              q2L.length + r3.length := key _ _ _ h3
          split at h
          · exact absurd h (by simp)
          case _ x rest' hrest =>
            have hr4 : (r3.dropWhile (fun a => a != '>')).length ≤ r3.length :=
              hw _ r3
            rw [hrest] at hr4
            simp only [Option.some.injEq, Prod.mk.injEq] at h
            obtain ⟨-, h2⟩ := h
            subst h2
            simp only [List.length_cons, q1L, q2L, List.length_append] at *
            omega
  · simp

/-- The `for i, line in enumerate(lines): if i + 1 == line_number: ... break`
loop: rewrite exactly the line with the given 1-based number, if any. -/
def patchAt (f : String → String) : Nat → List String → List String
  | _, [] => []
  | n, s :: rest => if n = 1 then f s :: rest else s :: patchAt f (n - 1) rest

def subLinkLine (new_link : String) (line : String) : String :=
  String.mk (subLA new_link.toList line.toList)

def subQrLine (new_qr_url : String) (line : String) : String :=
  String.mk (subQA new_qr_url.toList line.toList)

/-- Embedding of `replace_readme_link` on the document's line list. -/
def replace_readme_link (new_link : String) (line_number : Nat)
    (lines : List String) : List String :=
  patchAt (subLinkLine new_link) line_number lines

/-- Embedding of `replace_readme_qr_code` on the document's line list. -/
def replace_readme_qr_code (new_qr_url : String) (line_number : Nat)
    (lines : List String) : List String :=
  patchAt (subQrLine new_qr_url) line_number lines

/-- Whether the install-link pattern matches anywhere in the line. -/
def hasLinkPat : List Char → Bool
  | [] => false
  | c :: cs =>
    (match dropPre litL (c :: cs) with
     | some r => !(r.takeWhile (fun a => !isSp a)).isEmpty
     | none => false) || hasLinkPat cs

/-- Whether the QR-code image pattern matches anywhere in the line. -/
def hasQrPat : List Char → Bool
  | [] => false
  | c :: cs => (qrMatch (c :: cs)).isSome || hasQrPat cs

/-- States of the single pass that `re`'s template compiler
(`sre_parse.parse_template`) makes over a replacement template before any
matching is attempted.  `s0` is the ordinary literal state, `sb` follows a
backslash, `sd1 v` holds one group-reference digit of value `v`, `sd2 v w`
holds two octal digits that may still become a three-digit octal escape,
`so1`/`so2` absorb up to two octal digits after `\0`, `sg`/`sgd v seen`
track a `\g<number>` reference, and `fail` records that the template has
already raised `re.error`. -/
inductive TState where
  | s0
  | sb
  | sd1 (v : Nat)
  | sd2 (v w : Nat)
  | so1
  | so2
  | sg
  | sgd (v : Nat) (seen : Bool)
  | fail

/-- Decimal value of a digit character. -/
def dVal (c : Char) : Nat := c.toNat - 48

/-- Whether the character is an octal digit. -/
def isOctD (c : Char) : Bool := '0' ≤ c && c ≤ '7'

/-- One step of the template scan, translated from CPython's
`sre_parse.parse_template`: after a backslash, the known letter escapes
and a second backslash are literal, `\0` starts an octal escape of up to
two more octal digits, one or two further digits are a group reference
range-checked against the pattern's group count — except that three octal
digits form an octal escape, range-checked against 0o377 —, `\g` must
open a `\g<number>` reference with an in-range number, any other ASCII
letter is a bad escape, and a non-alphanumeric character keeps the
backslash literally. -/
def tStep (groups : Nat) : TState → Char → TState
  | TState.s0, c => if c = '\\' then TState.sb else TState.s0
  | TState.sb, c =>
    if c = '\\' || c = 'a' || c = 'b' || c = 'f' || c = 'n' || c = 'r' ||
        c = 't' || c = 'v' then TState.s0
    else if c = '0' then TState.so1
    else if c.isDigit then TState.sd1 (dVal c)
    else if c = 'g' then TState.sg
    else if c.isAlpha then TState.fail
    else TState.s0
  | TState.sd1 v, c =>
    if c.isDigit then
      (if v ≤ 7 ∧ dVal c ≤ 7 then TState.sd2 v (dVal c)
       else if v * 10 + dVal c ≤ groups then TState.s0 else TState.fail)
    else if v ≤ groups then
      (if c = '\\' then TState.sb else TState.s0)
    else TState.fail
  | TState.sd2 v w, c =>
    if isOctD c then
      (if v * 64 + w * 8 + dVal c ≤ 255 then TState.s0 else TState.fail)
    else if v * 10 + w ≤ groups then
      (if c = '\\' then TState.sb else TState.s0)
    else TState.fail
  | TState.so1, c =>
    if isOctD c then TState.so2
    else if c = '\\' then TState.sb
    else TState.s0
  | TState.so2, c =>
    if isOctD c then TState.s0
    else if c = '\\' then TState.sb
    else TState.s0
  | TState.sg, c => if c = '<' then TState.sgd 0 false else TState.fail
  | TState.sgd v seen, c =>
    if c.isDigit then TState.sgd (v * 10 + dVal c) true
    else if c = '>' then
      (if seen = true ∧ v ≤ groups then TState.s0 else TState.fail)
    else TState.fail
  | TState.fail, _ => TState.fail

/-- Whether the scan may stop in this state: a dangling backslash, an
unterminated `\g` reference, or an out-of-range trailing group reference
is an error; everything else completes the template. -/
def tAccept (groups : Nat) : TState → Bool
  | TState.s0 => true
  | TState.sd1 v => decide (v ≤ groups)
  | TState.sd2 v w => decide (v * 10 + w ≤ groups)
  | TState.so1 => true
  | TState.so2 => true
  | _ => false

/-- Whether `re.sub` accepts a replacement template for a pattern with the
given number of groups: `parse_template` runs once over the template
before any match is attempted, so an invalid escape or an out-of-range
group reference raises `re.error` even when the pattern never matches the
subject string. -/
def templOk (groups : Nat) (templ : List Char) : Bool :=
  tAccept groups (templ.foldl (tStep groups) TState.s0)

/-- The `re.sub` call of `replace_readme_link` with its error path: the
replacement template is `\1` followed by `new_link` and is parsed before
matching, so an invalid template raises `re.error` regardless of the
line's content.  On a parsed template the call returns the substituted
line; whenever the replacement is expansion-free (backslash-free) or the
line contains no match, that value coincides with `subLinkLine`, which
are the only situations the theorems below use it in. -/
def subLinkLineE (new_link : String) (line : String) : Except String String :=
  if templOk 1 ('\\' :: '1' :: new_link.toList) then
    Except.ok (subLinkLine new_link line)
  else
    Except.error ("re.error: invalid replacement template")

/-- The `re.sub` call of `replace_readme_qr_code` with its error path; the
replacement template here is `\1` + new_qr_url + `\2` against a two-group
pattern. -/
def subQrLineE (new_qr_url : String) (line : String) : Except String String :=
  if templOk 2 ('\\' :: '1' :: (new_qr_url.toList ++ '\\' :: '2' :: [])) then
    Except.ok (subQrLine new_qr_url line)
  else
    Except.error ("re.error: invalid replacement template")

/-- The patching loop with the exception path of its one `re.sub` call:
the loop body runs only on the targeted line, so a bad template raises
exactly when that line exists, and the document is returned unmodified
when the line number is out of range. -/
def patchAtE (f : String → Except String String) :
    Nat → List String → Except String (List String)
  | _, [] => Except.ok []
  | n, s :: rest =>
    if n = 1 then
      match f s with
      | Except.ok s2 => Except.ok (s2 :: rest)
      | Except.error e => Except.error e
    else
      match patchAtE f (n - 1) rest with
      | Except.ok rest2 => Except.ok (s :: rest2)
      | Except.error e => Except.error e

/-- Embedding of `replace_readme_link` including the `re.error` path of
its `re.sub` call. -/
def replace_readme_linkE (new_link : String) (line_number : Nat)
    (lines : List String) : Except String (List String) :=
  patchAtE (subLinkLineE new_link) line_number lines

/-- Embedding of `replace_readme_qr_code` including the `re.error` path of
its `re.sub` call. -/
def replace_readme_qr_codeE (new_qr_url : String) (line_number : Nat)
    (lines : List String) : Except String (List String) :=
  patchAtE (subQrLineE new_qr_url) line_number lines

/-! ## Remote Asset Publisher (`upload_qr_to_github`, upload.py lines 201-265)

External effects are supplied through `UploadEnv`.  Operations that can
raise in Python are modelled with `Except`: reading the QR file
(`open(qr_path, 'rb')`), the two HTTP calls (`requests.get`/`requests.put`
raise on transport failure), `response.json()` (raises on an unparseable
body — it is evaluated on the GET when the status is 200, and on the PUT
when the status is 200/201), and the two-element unpacking of
`repo.split('/')`.  The `try`/`except` around the default-branch lookup
means that step never fails; `run_command` is called with `check=False`
and yields the stripped stdout (empty on failure). -/

inductive UErr where
  | fileRead
  | netGet
  | netPut
  | jsonGet
  | jsonPut
  | repoSplit
deriving DecidableEq, Repr

structure HttpGetResp where
  status : Nat
  jsonSha : Except UErr (Option String)
deriving Repr

structure HttpPutResp where
  status : Nat
  jsonOk : Bool
  bodyDownloadUrl : Option String
  text : String
deriving Repr

structure UploadEnv where
  branchCmd : String
  readFile : Except UErr String
  getResp : Except UErr HttpGetResp
  putResp : Except UErr HttpPutResp

/-- Python `str.split('/')`: split on every separator, keeping empty
pieces. -/
def splitSlash : List Char → List (List Char)
  | [] => [[]]
  | c :: cs =>
    if c = '/' then [] :: splitSlash cs
    else
      match splitSlash cs with
      | h :: t => (c :: h) :: t
      | [] => [[c]]

/-- Python truthiness of the token argument (`if not token`). -/
def tokenFalsy : Option String → Bool
  | none => true
  | some t => t = ""

def defaultBranchOf (env : UploadEnv) (branch : String) : String :=
  if env.branchCmd = "" then branch else env.branchCmd

/-- Lines 230-234: `sha = None; if response.status_code == 200:
sha = response.json().get('sha')`. -/
def shaFromGet (g : HttpGetResp) : Except UErr (Option String) :=
  if g.status = 200 then g.jsonSha else Except.ok none

structure PutData where
  message : String
  content : String
  branch : String
  sha : Option String
deriving DecidableEq, Repr

/-- Lines 237-243: the create-or-update request body; `if sha:` adds the
`sha` key only when the looked-up value is truthy. -/
def putDataOf (assetName content branch : String) (sha : Option String) :
    PutData :=
  { message := "Add QR code: " ++ assetName
    content := content
    branch := branch
    sha := match sha with
      | some h => if h = "" then none else some h
      | none => none }

/-- Lines 251-252: the manually constructed raw-content URL. -/
def rawUrlOf (owner repoName branch assetName : String) : String :=
  "https://raw.githubusercontent.com/" ++ owner ++ "/" ++ repoName ++ "/" ++
    branch ++ "/assets/" ++ assetName

/-- Embedding of `upload_qr_to_github`.  The result is the function's
return value; `Except.error` models an uncaught Python exception
propagating to the caller. -/
def upload_qr_to_github (repo : String) (token : Option String)
    (assetName : String) (branch : String) (env : UploadEnv) :
    Except UErr (Option String) :=
  if tokenFalsy token then Except.ok none
  else
    match env.readFile with
    | Except.error e => Except.error e
    | Except.ok _content =>
      match env.getResp with
      | Except.error e => Except.error e
      | Except.ok g =>
        match shaFromGet g with
        | Except.error e => Except.error e
        | Except.ok _sha =>
          match env.putResp with
          | Except.error e => Except.error e
          | Except.ok p =>
            if p.status = 200 ∨ p.status = 201 then
              if p.jsonOk then
                match splitSlash repo.toList with
                | [owner, rname] =>
                  Except.ok (some (rawUrlOf (String.mk owner)
                    (String.mk rname) (defaultBranchOf env branch) assetName))
                | _ => Except.error UErr.repoSplit
              else Except.error UErr.jsonPut
            else Except.ok none

/-- The same steps of `upload_qr_to_github` up to the PUT call, exposing
the request body that is sent (`none` while the token check short-circuits
the whole function). -/
def uploadPutData (token : Option String) (assetName : String)
    (branch : String) (env : UploadEnv) : Except UErr (Option PutData) :=
  if tokenFalsy token then Except.ok none
  else
    match env.readFile with
    | Except.error e => Except.error e
    | Except.ok content =>
      match env.getResp with
      | Except.error e => Except.error e
      | Except.ok g =>
        match shaFromGet g with
        | Except.error e => Except.error e
        | Except.ok sha =>
          Except.ok (some (putDataOf assetName content
            (defaultBranchOf env branch) sha))

/-! ## Tagging step of `main` (upload.py lines 390-418) and `create_tag`
(lines 332-337), `create_github_release` request body (lines 282-288). -/

/-- The shell commands issued by `create_tag`. -/
def create_tag (tag_name : String) : List String :=
  ["git tag -a \"" ++ tag_name ++ "\" -m \"" ++ tag_name ++ "\"",
   "git push origin \"" ++ tag_name ++ "\""]

structure ReleaseReq where
  tag_name : String
  name : String
  body : String
  draft : Bool
  prerelease : Bool
deriving DecidableEq, Repr

/-- The release-creation request body built by `create_github_release`. -/
def releaseReqOf (tag name body : String) : ReleaseReq :=
  { tag_name := tag, name := name, body := body
    draft := false, prerelease := false }

structure TaggingOps where
  fullTag : String
  tagCmds : List String
  releaseReq : Option ReleaseReq
deriving DecidableEq, Repr

/-- The tagging tail of `main`: after the three prompts, `full_tag =
f"{version_name} {tag}"` is used for `create_tag` and, when a token is
present, for both `tag` and `name` of the release request; `none` models
the `sys.exit(1)` on missing input. -/
def mainTagging (version_name tag changes : String) (tokenPresent : Bool) :
    Option TaggingOps :=
  if version_name = "" ∨ tag = "" ∨ changes = "" then none
  else
    let full_tag := version_name ++ " " ++ tag
    some
      { fullTag := full_tag
        tagCmds := create_tag full_tag
        releaseReq :=
          if tokenPresent then some (releaseReqOf full_tag full_tag changes)
          else none }

/-- Environment in which every external interaction succeeds; the PUT
response body even offers its own download URL, which the code ignores. -/
def envAllOk : UploadEnv :=
  { branchCmd := "dev",
    readFile := Except.ok ("Zm9v"),
    getResp := Except.ok ⟨200, Except.ok (some ("abc123"))⟩,
    putResp := Except.ok ⟨200, true, some ("https://api.github.example/body-url"), ""⟩ }

/-- Environment whose asset-file read fails, as when `qr_path` does not
exist: `open(qr_path, 'rb')` raises and nothing catches it. -/
def envReadFail : UploadEnv :=
  { branchCmd := "",
    readFile := Except.error UErr.fileRead,
    getResp := Except.ok ⟨404, Except.ok none⟩,
    putResp := Except.ok ⟨201, true, none, ""⟩ }

/-! ## Supporting lemmas -/

theorem dropPre_eq_some (p : List Char) :
    ∀ s r : List Char, dropPre p s = some r ↔ s = p ++ r := by
  induction p with
  | nil => intro s r; simp [dropPre]
  | cons a ps ih =>
    intro s r
    cases s with
    | nil => simp [dropPre]
    | cons c cs =>
      by_cases h : a = c
      · subst h
        simp [dropPre, ih]
      · simp [dropPre, h, Ne.symm h]

theorem patchAt_getElem (f : String → String) (n : Nat) (lines : List String) :
    ∀ i : Nat, i + 1 ≠ n → (patchAt f n lines)[i]? = lines[i]? := by
  induction lines generalizing n with
  | nil => intro i _; simp [patchAt]
  | cons s rest ih =>
    intro i hi
    by_cases hn : n = 1
    · subst hn
      simp only [patchAt, if_pos rfl]
      cases i with
      | zero => exact absurd rfl hi
      | succ j => simp
    · simp only [patchAt, if_neg hn]
      cases i with
      | zero => simp
      | succ j =>
        simp only [List.getElem?_cons_succ]
        exact ih (n - 1) j (by omega)

theorem patchAt_zero (f : String → String) :
    ∀ l : List String, patchAt f 0 l = l := by
  intro l
  induction l with
  | nil => rfl
  | cons s rest ih => simp [patchAt, ih]

theorem patchAt_noop (f : String → String) :
    ∀ (n : Nat) (lines : List String),
      (∀ line, lines[n - 1]? = some line → f line = line) →
      patchAt f n lines = lines := by
  intro n lines
  induction lines generalizing n with
  | nil => intro _; rfl
  | cons s rest ih =>
    intro hline
    match n with
    | 0 => exact patchAt_zero f (s :: rest)
    | 1 =>
      have hs : f s = s := hline s (by simp)
      simp [patchAt, hs]
    | (k + 2) =>
      simp only [patchAt, if_neg (by omega : ¬ k + 2 = 1)]
      have hred : k + 2 - 1 = k + 1 := rfl
      rw [hred, ih (k + 1) (fun line hl => hline line (by simpa using hl))]

theorem patchAtE_zero (f : String → Except String String) :
    ∀ l : List String, patchAtE f 0 l = Except.ok l := by
  intro l
  induction l with
  | nil => rfl
  | cons s rest ih => simp [patchAtE, ih]

theorem patchAtE_noop (f : String → Except String String) :
    ∀ (n : Nat) (lines : List String),
      (∀ line, lines[n - 1]? = some line → f line = Except.ok line) →
      patchAtE f n lines = Except.ok lines := by
  intro n lines
  induction lines generalizing n with
  | nil => intro _; rfl
  | cons s rest ih =>
    intro hline
    match n with
    | 0 => exact patchAtE_zero f (s :: rest)
    | 1 =>
      have hs : f s = Except.ok s := hline s (by simp)
      simp [patchAtE, hs]
    | (k + 2) =>
      simp only [patchAtE, if_neg (by omega : ¬ k + 2 = 1)]
      have hred : k + 2 - 1 = k + 1 := rfl
      rw [hred, ih (k + 1) (fun line hl => hline line (by simpa using hl))]

theorem mk_toList (s : String) : String.mk s.toList = s := rfl

theorem subLA_nil (nl : List Char) : subLA nl [] = [] := by
  rw [subLA]

theorem subLA_cons_none (nl : List Char) (c : Char) (cs : List Char)
    (hd : dropPre litL (c :: cs) = none) :
    subLA nl (c :: cs) = c :: subLA nl cs := by
  rw [subLA, hd]

theorem subLA_cons_empty (nl : List Char) (c : Char) (cs r : List Char)
    (hd : dropPre litL (c :: cs) = some r)
    (he : (r.takeWhile (fun a => !isSp a)).isEmpty = true) :
    subLA nl (c :: cs) = c :: subLA nl cs := by
  rw [subLA, hd]
  simp only [he, if_true]

theorem subQA_nil (u : List Char) : subQA u [] = [] := by
  rw [subQA]

theorem subQA_cons_none (u : List Char) (c : Char) (cs : List Char)
    (hd : qrMatch (c :: cs) = none) :
    subQA u (c :: cs) = c :: subQA u cs := by
  rw [subQA, hd]

theorem subLA_of_no_match (nl : List Char) :
    ∀ s : List Char, hasLinkPat s = false → subLA nl s = s := by
  intro s
  induction s with
  | nil => intro _; exact subLA_nil nl
  | cons c cs ih =>
    intro h
    rw [hasLinkPat, Bool.or_eq_false_iff] at h
    obtain ⟨h1, h2⟩ := h
    cases hd : dropPre litL (c :: cs) with
    | none => rw [subLA_cons_none nl c cs hd, ih h2]
    | some r =>
      rw [hd] at h1
      have h1' : (r.takeWhile (fun a => !isSp a)).isEmpty = true := by
        simpa using h1
      rw [subLA_cons_empty nl c cs r hd h1', ih h2]

theorem subQA_of_no_match (u : List Char) :
    ∀ s : List Char, hasQrPat s = false → subQA u s = s := by
  intro s
  induction s with
  | nil => intro _; exact subQA_nil u
  | cons c cs ih =>
    intro h
    rw [hasQrPat, Bool.or_eq_false_iff] at h
    obtain ⟨h1, h2⟩ := h
    cases hd : qrMatch (c :: cs) with
    | none => rw [subQA_cons_none u c cs hd, ih h2]
    | some pr => rw [hd] at h1; simp at h1

/-! ## Idempotence analysis of the Document Patcher -/

/-- C1 counterexample: `https://example.com/page` parses as an absolute
URL (scheme `https`, host `example.com`) and carries no credential-token
prefix, yet `validate_url` shows the confirmation prompt — and rejects
when the user declines — because the URL lacks a `shortcuts` marker.  So
the claim that all such URLs are accepted without prompting is false. -/
theorem claim_C1_counterexample :
    urlparseSN ("https://example.com/page").toList =
      Except.ok (("https").toList, ("example.com").toList) ∧
    (dropPre patPre ("https://example.com/page").toList).isSome = false ∧
    (dropPre ghpPre ("https://example.com/page").toList).isSome = false ∧
    validate_url ("https://example.com/page") false =
      ⟨false, some ("URL validation cancelled by user"), true⟩ ∧
    validate_url ("https://example.com/page") true = ⟨true, none, true⟩ := by
  refine ⟨by rfl, by decide, by decide, by rfl, by rfl⟩

/-- C1 amended: every input string that parses as an absolute URL (it has
a scheme and a host), does not start with a credential-token prefix, and
contains the substring `shortcuts` case-insensitively (as every iCloud
shortcut link does) is accepted by `validate_url` without prompting. -/
theorem claim_C1_amended (url : String) (userConfirm : Bool)
    (s n : List Char)
    (hparse : urlparseSN url.toList = Except.ok (s, n))
    (hs : s ≠ []) (hn : n ≠ [])
    (hp1 : (dropPre patPre url.toList).isSome = false)
    (hp2 : (dropPre ghpPre url.toList).isSome = false)
    (hsc : hasSub shortcutsPat (toLowerL url.toList) = true) :
    validate_url url userConfirm = ⟨true, none, false⟩ := by
  have hne : url.toList.isEmpty = false := by
    cases hl : url.toList with
    | nil =>
      rw [hl] at hparse
      simp only [urlparseSN, splitScheme, splitNetloc] at hparse
      simp at hparse
      exact absurd hparse.1 hs
    | cons a t => simp
  have hs' : s.isEmpty = false := by
    cases s with
    | nil => exact absurd rfl hs
    | cons a t => rfl
  have hn' : n.isEmpty = false := by
    cases n with
    | nil => exact absurd rfl hn
    | cons a t => rfl
  simp only [validate_url, hne, Bool.false_eq_true, if_false, hp1, hp2,
    Bool.or_self, hparse, hs', hn', hsc, Bool.not_true, Bool.and_false]

/-- Witness for the amended C1 on a real shortcut URL. -/
theorem claim_C1_amended_witness :
    validate_url ("https://www.icloud.com/shortcuts/abc123") false =
      ⟨true, none, false⟩ :=
  claim_C1_amended ("https://www.icloud.com/shortcuts/abc123") false
    (("https").toList) (("www.icloud.com").toList) (by rfl)
    (by decide) (by decide) (by decide) (by decide) (by decide)

/-- C4: both document patchers leave every line other than the targeted
1-based line number byte-for-byte unchanged. -/
theorem claim_C4 (new_link new_qr_url : String) (line_number : Nat)
    (lines : List String) (i : Nat) (hi : i + 1 ≠ line_number) :
    (replace_readme_link new_link line_number lines)[i]? = lines[i]? ∧
    (replace_readme_qr_code new_qr_url line_number lines)[i]? = lines[i]? :=
  ⟨patchAt_getElem _ line_number lines i hi,
   patchAt_getElem _ line_number lines i hi⟩

/-- Witness for C4: patching line 2 of a three-line document leaves lines
1 and 3 unchanged (shown here for line 1). -/
theorem claim_C4_witness :
    (replace_readme_link ("https://new/x") 2
      [("start"), ("**Install MessageDict:** https://old/x"), ("end")])[0]? =
      [("start"), ("**Install MessageDict:** https://old/x"), ("end")][0]? ∧
    (replace_readme_qr_code ("https://new/q") 2
      [("start"), ("**Install MessageDict:** https://old/x"), ("end")])[0]? =
      [("start"), ("**Install MessageDict:** https://old/x"), ("end")][0]? :=
  claim_C4 ("https://new/x") ("https://new/q") 2
    [("start"), ("**Install MessageDict:** https://old/x"), ("end")] 0
    (by decide)

/-- Counterexample for C5: a patcher run on a non-matching line is not
always a silent no-op, because `re.sub` parses the replacement template
before attempting any match.  With the replacement `\2` — an out-of-range
group reference for the one-group link pattern (`\3` for the two-group
image pattern) — each patcher raises `re.error` on a line that matches
neither pattern instead of returning the document unchanged. -/
theorem claim_C5_counterexample :
    hasLinkPat ("plain text").toList = false ∧
    hasQrPat ("plain text").toList = false ∧
    replace_readme_linkE ("\\2") 1 [("plain text")] =
      Except.error ("re.error: invalid replacement template") ∧
    replace_readme_qr_codeE ("\\3") 1 [("plain text")] =
      Except.error ("re.error: invalid replacement template") :=
  ⟨by decide, by decide, rfl, rfl⟩

/-- C5 (amended): each patcher on its own is a silent no-op when its
replacement template parses.  If the targeted line exists and does not
match the link pattern, and the template `\1` + new_link parses (every
backslash-free replacement not beginning with a digit does), the link
patcher returns the document unchanged and raises no error — regardless
of the image pattern; symmetrically for the image patcher with its own
pattern and the template `\1` + new_qr_url + `\2`. -/
theorem claim_C5_amended (new_link new_qr_url : String) (line_number : Nat)
    (lines : List String) (line : String)
    (hline : lines[line_number - 1]? = some line) :
    (hasLinkPat line.toList = false →
      templOk 1 ('\\' :: '1' :: new_link.toList) = true →
      replace_readme_linkE new_link line_number lines = Except.ok lines) ∧
    (hasQrPat line.toList = false →
      templOk 2 ('\\' :: '1' :: (new_qr_url.toList ++ '\\' :: '2' :: [])) =
        true →
      replace_readme_qr_codeE new_qr_url line_number lines =
        Except.ok lines) := by
  constructor
  · intro hpat htpl
    apply patchAtE_noop
    intro l hl
    rw [hline] at hl
    obtain rfl : line = l := by injection hl
    unfold subLinkLineE
    rw [if_pos htpl]
    unfold subLinkLine
    rw [subLA_of_no_match _ _ hpat, mk_toList]
  · intro hpat htpl
    apply patchAtE_noop
    intro l hl
    rw [hline] at hl
    obtain rfl : line = l := by injection hl
    unfold subQrLineE
    rw [if_pos htpl]
    unfold subQrLine
    rw [subQA_of_no_match _ _ hpat, mk_toList]

/-- Witness for amended C5: a document whose first line matches neither
pattern is returned unchanged, without an error, by both patchers for
ordinary URL replacements. -/
theorem claim_C5_amended_witness :
    replace_readme_linkE ("https://new/x") 1 [("plain text"), ("more")] =
      Except.ok [("plain text"), ("more")] ∧
    replace_readme_qr_codeE ("https://new/q") 1 [("plain text"), ("more")] =
      Except.ok [("plain text"), ("more")] :=
  ⟨(claim_C5_amended ("https://new/x") ("https://new/q") 1
      [("plain text"), ("more")] ("plain text") (by decide)).1
      (by decide) (by decide),
   (claim_C5_amended ("https://new/x") ("https://new/q") 1
      [("plain text"), ("more")] ("plain text") (by decide)).2
      (by decide) (by decide)⟩

/-- C8: for every input string that starts with a known credential-token
prefix (`github_pat_` or `ghp_`), `validate_url` returns accepted = false
with the "looks like a token" diagnostic and without prompting, even if
the string is otherwise a well-formed URL. -/
theorem claim_C8 (url : String) (userConfirm : Bool)
    (h : (dropPre patPre url.toList).isSome ∨ (dropPre ghpPre url.toList).isSome) :
    validate_url url userConfirm = ⟨false, some tokenMsg, false⟩ := by
  have hne : url.toList.isEmpty = false := by
    rcases h with h | h <;>
    · rw [Option.isSome_iff_exists] at h
      obtain ⟨r, hr⟩ := h
      rw [dropPre_eq_some] at hr
      cases hl : url.toList with
      | nil => rw [hl] at hr; simp [patPre, ghpPre] at hr
      | cons a t => simp
  have ht : ((dropPre patPre url.toList).isSome || (dropPre ghpPre url.toList).isSome) = true := by
    rcases h with h | h <;> rw [h] <;> simp
  simp only [validate_url, hne, Bool.false_eq_true, if_false, ht, if_true]

/-- Witness for C8 at the concrete input `ghp_abcdef`, which is
token-prefixed. -/
theorem claim_C8_witness :
    validate_url ("ghp_abcdef") true = ⟨false, some tokenMsg, false⟩ :=
  claim_C8 ("ghp_abcdef") true (Or.inr (by decide))

/-- C9: on the remote URL `git@github.com:acme/widget.git`,
`get_github_repo` resolves the identifier `acme/widget` (first pattern,
captured owner and repository name, trailing `.git` stripped). -/
theorem claim_C9 :
    get_github_repo ("git@github.com:acme/widget.git") = some ("acme/widget") := by
  decide

/-- C10: every run reaching the tagging step uses the version name and the
tag joined by a single space — not the tag alone — both for the
version-control tag commands and as `tag_name` of the release request. -/
theorem claim_C10 (version_name tag changes : String) (tokenPresent : Bool)
    (h1 : version_name ≠ "") (h2 : tag ≠ "") (h3 : changes ≠ "") :
    mainTagging version_name tag changes tokenPresent =
      some { fullTag := version_name ++ " " ++ tag
             tagCmds := create_tag (version_name ++ " " ++ tag)
             releaseReq :=
               if tokenPresent then
                 some (releaseReqOf (version_name ++ " " ++ tag)
                   (version_name ++ " " ++ tag) changes)
               else none } ∧
    version_name ++ " " ++ tag ≠ tag := by
  constructor
  · simp only [mainTagging, h1, h2, h3, or_self, if_false]
  · intro heq
    have hlen := congrArg String.length heq
    have hv : 0 < version_name.length := by
      rcases version_name with ⟨l⟩
      cases l with
      | nil => exact absurd rfl h1
      | cons a t => simp [String.length]
    rw [String.length_append, String.length_append] at hlen
    have hsp : (" ").length = 1 := rfl
    omega

/-- Witness for C10 at concrete nonempty inputs. -/
theorem claim_C10_witness :
    mainTagging ("MessageDict 2.0") ("v2.0") ("fixes") true =
      some { fullTag := ("MessageDict 2.0") ++ " " ++ ("v2.0")
             tagCmds := create_tag (("MessageDict 2.0") ++ " " ++ ("v2.0"))
             releaseReq :=
               if true then
                 some (releaseReqOf (("MessageDict 2.0") ++ " " ++ ("v2.0"))
                   (("MessageDict 2.0") ++ " " ++ ("v2.0")) ("fixes"))
               else none } ∧
    ("MessageDict 2.0") ++ " " ++ ("v2.0") ≠ ("v2.0") :=
  claim_C10 ("MessageDict 2.0") ("v2.0") ("fixes") true (by decide) (by decide)
    (by decide)

/-- C6: when the preliminary GET succeeds with status 200 and yields the
content hash H1, the create-or-update request body carries `sha = H1`;
when no prior object exists (GET status is not 200) the body carries no
`sha` field. -/
theorem claim_C6 (token : Option String) (assetName branch content h1 : String)
    (env : UploadEnv) (g : HttpGetResp)
    (htok : tokenFalsy token = false)
    (hread : env.readFile = Except.ok content)
    (hget : env.getResp = Except.ok g) :
    (g.status = 200 → g.jsonSha = Except.ok (some h1) → h1 ≠ "" →
      uploadPutData token assetName branch env =
        Except.ok (some (putDataOf assetName content (defaultBranchOf env branch)
          (some h1))) ∧
      (putDataOf assetName content (defaultBranchOf env branch) (some h1)).sha =
        some h1) ∧
    (g.status ≠ 200 →
      uploadPutData token assetName branch env =
        Except.ok (some (putDataOf assetName content (defaultBranchOf env branch)
          none)) ∧
      (putDataOf assetName content (defaultBranchOf env branch) none).sha =
        none) := by
  constructor
  · intro hs hsha hne
    refine ⟨?_, ?_⟩
    · simp only [uploadPutData, htok, Bool.false_eq_true, if_false, hread, hget,
        shaFromGet, hs, if_true, hsha]
    · simp [putDataOf, hne]
  · intro hs
    refine ⟨?_, ?_⟩
    · simp only [uploadPutData, htok, Bool.false_eq_true, if_false, hread, hget,
        shaFromGet, hs, if_false]
    · simp [putDataOf]

/-- Witness for C6: concrete run with an existing remote object carrying
hash abc123. -/
theorem claim_C6_witness :
    uploadPutData (some ("tok")) ("qr.png") ("main") envAllOk =
      Except.ok (some (putDataOf ("qr.png") ("Zm9v")
        (defaultBranchOf envAllOk ("main")) (some ("abc123")))) ∧
    (putDataOf ("qr.png") ("Zm9v") (defaultBranchOf envAllOk ("main"))
      (some ("abc123"))).sha = some ("abc123") :=
  (claim_C6 (some ("tok")) ("qr.png") ("main") ("Zm9v") ("abc123") envAllOk
    ⟨200, Except.ok (some ("abc123"))⟩ rfl rfl rfl).1 rfl rfl (by decide)

/-- C7: whenever `upload_qr_to_github` returns a URL, that URL is the one
deterministically constructed from the repository identifier, the detected
branch and the fixed assets prefix plus the asset's base name — never a
value taken from the API response body. -/
theorem claim_C7 (repo : String) (token : Option String)
    (assetName branch u : String) (env : UploadEnv)
    (h : upload_qr_to_github repo token assetName branch env =
      Except.ok (some u)) :
    ∃ owner rname, splitSlash repo.toList = [owner, rname] ∧
      u = rawUrlOf (String.mk owner) (String.mk rname)
        (defaultBranchOf env branch) assetName := by
  unfold upload_qr_to_github at h
  repeat' split at h
  all_goals try simp at h
  rename_i owner rname hsplit
  exact ⟨owner, rname, hsplit, h.symm⟩

/-- Witness for C7: in the all-success environment the function returns
exactly the constructed raw-content URL. -/
theorem claim_C7_witness :
    ∃ owner rname, splitSlash ("o/r").toList = [owner, rname] ∧
      rawUrlOf ("o") ("r") ("dev") ("qr.png") =
        rawUrlOf (String.mk owner) (String.mk rname)
          (defaultBranchOf envAllOk ("main")) ("qr.png") :=
  claim_C7 ("o/r") (some ("tok")) ("qr.png") ("main")
    (rawUrlOf ("o") ("r") ("dev") ("qr.png")) envAllOk (by rfl)

/-- C2 counterexample: with a token present and an unreadable asset file,
`upload_qr_to_github` neither returns the constructed URL nor `None` — the
file-read exception propagates to the caller (modelled as `Except.error`),
so the claim's "never raises, for every combination of inputs" fails. -/
theorem claim_C2_counterexample :
    upload_qr_to_github ("owner/repo") (some ("tok")) ("qr.png") ("main")
      envReadFail = Except.error UErr.fileRead := by
  rfl

/-- C2 amended: provided the asset file is readable, both HTTP calls yield
responses (no transport-level exception), the response JSON parses where
the code reads it, and the repository identifier splits into exactly
owner and name, `upload_qr_to_github` returns either the constructed
raw-content URL or `none`; it raises only when one of those external
operations fails. -/
theorem claim_C2_amended (repo : String) (token : Option String)
    (assetName branch content : String) (env : UploadEnv)
    (g : HttpGetResp) (p : HttpPutResp) (owner rname : List Char)
    (hread : env.readFile = Except.ok content)
    (hget : env.getResp = Except.ok g)
    (hjson : g.status = 200 → ∃ sh, g.jsonSha = Except.ok sh)
    (hput : env.putResp = Except.ok p)
    (hpjson : p.status = 200 ∨ p.status = 201 → p.jsonOk = true)
    (hrepo : splitSlash repo.toList = [owner, rname]) :
    upload_qr_to_github repo token assetName branch env =
      Except.ok (some (rawUrlOf (String.mk owner) (String.mk rname)
        (defaultBranchOf env branch) assetName)) ∨
    upload_qr_to_github repo token assetName branch env = Except.ok none := by
  unfold upload_qr_to_github
  by_cases ht : tokenFalsy token = true
  · right
    simp [ht]
  · simp only [Bool.not_eq_true] at ht
    simp only [ht, Bool.false_eq_true, if_false, hread, hget, hput]
    unfold shaFromGet
    by_cases hs : g.status = 200
    · obtain ⟨sh, hsh⟩ := hjson hs
      rw [if_pos hs, hsh]
      by_cases hp : p.status = 200 ∨ p.status = 201
      · rw [if_pos hp, hpjson hp, if_pos rfl, hrepo]
        left
        rfl
      · rw [if_neg hp]
        right
        rfl
    · rw [if_neg hs]
      by_cases hp : p.status = 200 ∨ p.status = 201
      · rw [if_pos hp, hpjson hp, if_pos rfl, hrepo]
        left
        rfl
      · rw [if_neg hp]
        right
        rfl

/-- Witness for C2 amended in the all-success environment. -/
theorem claim_C2_amended_witness :
    upload_qr_to_github ("o/r") (some ("tok")) ("qr.png") ("main") envAllOk =
      Except.ok (some (rawUrlOf (String.mk ("o").toList)
        (String.mk ("r").toList) (defaultBranchOf envAllOk ("main"))
        ("qr.png"))) ∨
    upload_qr_to_github ("o/r") (some ("tok")) ("qr.png") ("main") envAllOk =
      Except.ok none :=
  claim_C2_amended ("o/r") (some ("tok")) ("qr.png") ("main") ("Zm9v")
    envAllOk ⟨200, Except.ok (some ("abc123"))⟩
    ⟨200, true, some ("https://api.github.example/body-url"), ""⟩
    (("o").toList) (("r").toList) rfl rfl
    (fun _ => ⟨some ("abc123"), rfl⟩) rfl (fun _ => rfl) (by rfl)

end MessageDict
